import Mathlib

/-!
Shallow embedding of the message-submission pipeline of `src/chatbot-v.js`
(the `App` component: `handleSendMessage`, `sendBotResponse`,
`saveTrainingData`, `getBotResponse`).

JavaScript strings are modelled as `List Char`.  The external collaborators
are modelled as explicit state: the Conversation Store (the `chat_history`
collection) as an append-only list of `ChatMessage`, the Knowledge Store
(the `training_data` collection) as a list of `KnowledgeEntry` whose
document id is the lower-cased question, and the local transcript view
(the `messages` React state) plus the `isLoading` flag as plain fields.
Store writes are modelled as always succeeding; a failure of the code
inside the outer `try` block of `handleSendMessage` is injected through
`SubmitFault`, mirroring its `try/catch/finally` structure, and the
outcome of the `fetch` to the inference endpoint (including any exception
caught by the inner `try` of `getBotResponse`) through `FetchOutcome`.
-/

abbrev Str := List Char

/-- The double-quote character stripped by `replace` at lines 107-108. -/
def quoteChar : Char := '"'

/-- The apostrophe character (U+0027), used to spell the string literals
of the source that contain one. -/
def apos : Char := Char.ofNat 39

def userSender : Str := "user".data

def botSender : Str := "bot".data

/-- The literal checked by `userMessage.startsWith` at line 104 (note the
trailing space). -/
def teachPrefixText : Str := "/teach ".data

/-- The literal checked by `userMessage.startsWith` at line 114. -/
def clearPrefixText : Str := "/clear".data

/-- Line 110: the acknowledgement text of a successful teach command. -/
def ackText : Str :=
  "Acknowledged. I".data ++ apos :: "ve noted that for future reference.".data

/-- Line 112: the usage-guidance text of a rejected teach command. -/
def invalidTeachText : Str :=
  "Invalid /teach command. Use: /teach \"question\" \"answer\"".data

/-- Line 117: the confirmation text of the clear command. -/
def clearedText : Str := "Chat history cleared.".data

/-- Line 124: the generic error text of the outer catch block. -/
def oopsText : Str := "Oops! Something went wrong. Please try again.".data

/-- Line 189: the fallback text when the response shape is unexpected. -/
def rephraseText : Str :=
  "I".data ++ apos :: "m not sure how to respond to that. Can you rephrase?".data

/-- Line 193: the fallback text of the inner catch block. -/
def troubleText : Str :=
  "I".data ++ apos :: "m sorry, I".data ++ apos ::
    "m having trouble connecting right now. Please try again later.".data

/-- Line 166: the fixed text of the prompt before the training block. -/
def promptIntro : Str :=
  "You are a blank chatbot being trained. Here".data ++ apos ::
    "s some training data I".data ++ apos :: "ve provided you:\n".data

/-- Line 166: the fixed text of the prompt between the training block and
the literal user message. -/
def promptBridge : Str :=
  "\n\nBased on our conversation history and the training data, please respond to the following:\n".data

/-- JavaScript `String.prototype.trim` (line 89 and line 92). -/
def jsTrim (l : Str) : Str :=
  ((l.dropWhile Char.isWhitespace).reverse.dropWhile Char.isWhitespace).reverse

/-- JavaScript `String.prototype.toLowerCase` (line 143). -/
def jsToLower (l : Str) : Str := l.map Char.toLower

/-- JavaScript `s.replace` with a global double-quote pattern and empty
replacement (lines 107-108): removes every double quote. -/
def stripQuotes (l : Str) : Str := l.filter (fun c => c != quoteChar)

/-- JavaScript `s.split` specialised to the constant three-character
separator quote-space-quote of line 105: scans left to right,
non-overlapping, keeping (possibly empty) pieces between separator
occurrences, with the accumulator holding the current piece reversed. -/
def splitOnQuoteSpaceQuote : Str → Str → List Str
  | c1 :: c2 :: c3 :: rest, acc =>
    if c1 = quoteChar ∧ c2 = ' ' ∧ c3 = quoteChar then
      acc.reverse :: splitOnQuoteSpaceQuote rest []
    else
      splitOnQuoteSpaceQuote (c2 :: c3 :: rest) (c1 :: acc)
  | l, acc => [acc.reverse ++ l]

/-- Line 105: the split of the substring that follows the seven-character
teach command marker, using the quote-space-quote separator. -/
def jsSplitTeachArgs (l : Str) : List Str := splitOnQuoteSpaceQuote l []

/-- A document of the `chat_history` collection (lines 97-101, 133-137);
the store-assigned id and timestamp are left implicit in the position
inside the append-only log. -/
structure ChatMessage where
  sender : Str
  text : Str
deriving DecidableEq, Repr

/-- A document of the `training_data` collection (lines 143-148): the
document id (`key`) is the lower-cased question, the data fields are the
question and the answer (the server timestamp is left implicit). -/
structure KnowledgeEntry where
  key : Str
  question : Str
  answer : Str
deriving DecidableEq, Repr

/-- One element of `candidates[0].content.parts` (line 182-185). -/
structure ResponsePart where
  text : Str
deriving DecidableEq, Repr

/-- One content object of a candidate; `parts` may be absent (line 183). -/
structure ResponseContent where
  parts : Option (List ResponsePart)
deriving DecidableEq, Repr

/-- One element of `candidates`; `content` may be absent (line 183). -/
structure ResponseCandidate where
  content : Option ResponseContent
deriving DecidableEq, Repr

/-- The JSON body parsed at line 180; `candidates` may be absent. -/
structure LLMResponse where
  candidates : Option (List ResponseCandidate)
deriving DecidableEq, Repr

/-- Outcome of the inference call inside the inner `try` of
`getBotResponse`: either a parsed response body, or any exception
(transport failure of `fetch`, a failing `getDocs`, a failing `json()`)
caught at line 191. -/
inductive FetchOutcome where
  | response (r : LLMResponse)
  | failure
deriving DecidableEq, Repr

/-- One element of the `contents` array of the request payload
(lines 159-170): a role-tagged text turn. -/
structure Turn where
  role : Str
  text : Str
deriving DecidableEq, Repr

/-- The mutable state visible to the pipeline: the Conversation Store log,
the Knowledge Store contents, the local transcript view (`messages`) and
the `isLoading` flag. -/
structure AppState where
  log : List ChatMessage
  training : List KnowledgeEntry
  view : List ChatMessage
  isLoading : Bool
deriving DecidableEq, Repr

/-- Failure injection for the outer `try` block of `handleSendMessage`:
either everything before the catch succeeds (with the given inference
outcome), or the initial `addDoc` of the user message throws, or the
taken classification branch throws after the user message was written. -/
inductive SubmitFault where
  | ok (outcome : FetchOutcome)
  | throwAtUserWrite
  | throwInBranch
deriving DecidableEq, Repr

/-- Result of one `handleSendMessage` call: the final state, and the
request payload sent to the inference endpoint, if any. -/
structure SubmitResult where
  state : AppState
  request : Option (List Turn)
deriving DecidableEq, Repr

/-- Function `sendBotResponse` (lines 131-138): appends one message to the
`chat_history` collection. -/
def sendBotResponse (log : List ChatMessage) (sender text : Str) : List ChatMessage :=
  log ++ [ChatMessage.mk sender text]

/-- The merging document write of lines 144-148 on the document with
the given id: overwrites the written fields if a document with that id
exists, creates the document otherwise. -/
def setDocMerge (store : List KnowledgeEntry) (e : KnowledgeEntry) : List KnowledgeEntry :=
  if store.any (fun x => x.key == e.key) then
    store.map (fun x => if x.key == e.key then e else x)
  else
    store ++ [e]

/-- Function `saveTrainingData` (lines 141-149): document id is
`question.toLowerCase()`, fields are the question and the answer. -/
def saveTrainingData (store : List KnowledgeEntry) (question answer : Str) : List KnowledgeEntry :=
  setDocMerge store (KnowledgeEntry.mk (jsToLower question) question answer)

/-- Point lookup in the Knowledge Store by document id. -/
def lookupKey (store : List KnowledgeEntry) (k : Str) : Option KnowledgeEntry :=
  store.find? (fun e => e.key == k)

/-- Line 165: one line of the training context block. -/
def trainingLine (e : KnowledgeEntry) : Str :=
  "User asked ".data ++ quoteChar :: e.question ++ quoteChar :: ", I responded ".data
    ++ quoteChar :: e.answer ++ [quoteChar, '.']

/-- Lines 159-168: the `contents` array of the request payload.  Each
transcript message becomes a turn whose role is `user` or `model` per its
sender; the final turn carries the fixed prompt text around the rendered
training block and ends with the literal user message. -/
def buildTurns (training : List KnowledgeEntry) (view : List ChatMessage)
    (userMessage : Str) : List Turn :=
  view.map (fun m =>
    Turn.mk (if m.sender == userSender then "user".data else "model".data) m.text)
    ++ [Turn.mk "user".data
          (promptIntro ++ List.intercalate "\n".data (training.map trainingLine)
            ++ promptBridge ++ userMessage)]

/-- The shape guard of lines 182-184 followed by the extraction of
`candidates[0].content.parts[0].text` at line 185. -/
def extractBotText (r : LLMResponse) : Option Str :=
  match r.candidates with
  | some (c :: _) =>
    match c.content with
    | some content =>
      match content.parts with
      | some (p :: _) => some p.text
      | _ => none
    | none => none
  | _ => none

/-- The text written back by `getBotResponse` for a given inference
outcome: the extracted answer on success (line 186), the rephrase
fallback on a shape mismatch (line 189), the trouble-connecting fallback
when the inner catch fires (line 193). -/
def inferReplyText (outcome : FetchOutcome) : Str :=
  match outcome with
  | .failure => troubleText
  | .response r =>
    match extractBotText r with
    | some t => t
    | none => rephraseText

/-- Function `getBotResponse` (lines 152-195): returns the request payload built
from the current training data and transcript view, and the state after
writing exactly one bot message for the outcome. -/
def getBotResponse (st : AppState) (userMessage : Str) (outcome : FetchOutcome) :
    List Turn × AppState :=
  (buildTurns st.training st.view userMessage,
   { st with log := sendBotResponse st.log botSender (inferReplyText outcome) })

/-- The classification of lines 104-121, applied after the user message
was written: the teach branch, the clear branch, or the inference turn. -/
def classify (userMessage : Str) (st : AppState) (outcome : FetchOutcome) : SubmitResult :=
  if teachPrefixText.isPrefixOf userMessage then
    match jsSplitTeachArgs (List.drop teachPrefixText.length userMessage) with
    | [p0, p1] =>
      SubmitResult.mk
        { st with
            training := saveTrainingData st.training (stripQuotes p0) (stripQuotes p1),
            log := sendBotResponse st.log botSender ackText }
        none
    | _ =>
      SubmitResult.mk { st with log := sendBotResponse st.log botSender invalidTeachText } none
  else if clearPrefixText.isPrefixOf userMessage then
    SubmitResult.mk
      { st with view := [], log := sendBotResponse st.log botSender clearedText } none
  else
    let rq := getBotResponse st userMessage outcome
    SubmitResult.mk rq.2 (some rq.1)

/-- Function `handleSendMessage` (lines 87-128).  `avail` bundles the `db` and
`userId` guards of line 89.  On the happy path the trimmed user message is
appended to the log before classification; a thrown exception falls into
the catch block, which appends the generic error message, and the
`finally` block always clears `isLoading`. -/
def handleSendMessage (avail : Bool) (rawInput : Str) (st : AppState)
    (fault : SubmitFault) : SubmitResult :=
  if jsTrim rawInput = [] ∨ avail = false then
    SubmitResult.mk st none
  else
    let userMessage := jsTrim rawInput
    let busy : AppState := { st with isLoading := true }
    let attempt : SubmitResult ⊕ AppState :=
      match fault with
      | .throwAtUserWrite => Sum.inr busy
      | .throwInBranch =>
        Sum.inr { busy with log := busy.log ++ [ChatMessage.mk userSender userMessage] }
      | .ok outcome =>
        Sum.inl (classify userMessage
          { busy with log := busy.log ++ [ChatMessage.mk userSender userMessage] } outcome)
    match attempt with
    | Sum.inl r => SubmitResult.mk { r.state with isLoading := false } r.request
    | Sum.inr s =>
      SubmitResult.mk
        { s with log := sendBotResponse s.log botSender oopsText, isLoading := false } none

/-- Modelled from the spec: the two-double-quoted-segment grammar of the
teach command arguments — exactly two double-quoted segments separated by
a single space, a segment containing no double quote.  Only used to
compare the grammar stated by the spec with the split-based parse of
line 105. -/
def matchesTeachGrammar (rest : Str) : Prop :=
  ∃ q1 a1 : Str, quoteChar ∉ q1 ∧ quoteChar ∉ a1 ∧
    rest = quoteChar :: q1 ++ quoteChar :: ' ' :: quoteChar :: a1 ++ [quoteChar]

/-- The full text of a well-formed teach command for a question and an
answer. -/
def teachCmd (question answer : Str) : Str :=
  teachPrefixText ++ (quoteChar :: question ++ quoteChar :: ' ' :: quoteChar :: (answer ++ [quoteChar]))

/-- A string with no double quote in it. -/
def quoteFree (l : Str) : Bool := l.all (fun c => c != quoteChar)

/-! ### Helper lemmas about the specialised split -/

theorem splitQSQ_step_ne (c1 c2 c3 : Char) (rest acc : Str)
    (h : ¬(c1 = quoteChar ∧ c2 = ' ' ∧ c3 = quoteChar)) :
    splitOnQuoteSpaceQuote (c1 :: c2 :: c3 :: rest) acc
      = splitOnQuoteSpaceQuote (c2 :: c3 :: rest) (c1 :: acc) := by
  simp [splitOnQuoteSpaceQuote, h]

theorem splitQSQ_step_eq (rest acc : Str) :
    splitOnQuoteSpaceQuote (quoteChar :: ' ' :: quoteChar :: rest) acc
      = acc.reverse :: splitOnQuoteSpaceQuote rest [] := by
  simp [splitOnQuoteSpaceQuote]

theorem splitQSQ_skip (A : Str) : quoteChar ∉ A → ∀ (r2 acc : Str),
    splitOnQuoteSpaceQuote (A ++ quoteChar :: ' ' :: quoteChar :: r2) acc
      = (acc.reverse ++ A) :: splitOnQuoteSpaceQuote r2 [] := by
  induction A with
  | nil =>
    intro _ r2 acc
    simpa using splitQSQ_step_eq r2 acc
  | cons a A2 ih =>
    intro hA r2 acc
    have ha : a ≠ quoteChar := fun h => hA (by simp [h])
    have hA2 : quoteChar ∉ A2 := fun h => hA (List.mem_cons_of_mem a h)
    obtain ⟨x, y, ys, hxy⟩ :
        ∃ x y ys, A2 ++ quoteChar :: ' ' :: quoteChar :: r2 = x :: y :: ys := by
      cases A2 with
      | nil => exact ⟨_, _, _, rfl⟩
      | cons b A3 =>
        cases h3 : A3 ++ quoteChar :: ' ' :: quoteChar :: r2 with
        | nil => simp at h3
        | cons c cs => exact ⟨b, c, cs, by simp [h3]⟩
    calc splitOnQuoteSpaceQuote ((a :: A2) ++ quoteChar :: ' ' :: quoteChar :: r2) acc
        = splitOnQuoteSpaceQuote (a :: x :: y :: ys) acc := by
          rw [List.cons_append, hxy]
      _ = splitOnQuoteSpaceQuote (x :: y :: ys) (a :: acc) :=
          splitQSQ_step_ne a x y ys acc (fun hcon => ha hcon.1)
      _ = splitOnQuoteSpaceQuote (A2 ++ quoteChar :: ' ' :: quoteChar :: r2) (a :: acc) := by
          rw [hxy]
      _ = ((a :: acc).reverse ++ A2) :: splitOnQuoteSpaceQuote r2 [] := ih hA2 r2 (a :: acc)
      _ = (acc.reverse ++ (a :: A2)) :: splitOnQuoteSpaceQuote r2 [] := by simp

theorem splitQSQ_tail (B : Str) : quoteChar ∉ B → ∀ acc : Str,
    splitOnQuoteSpaceQuote (B ++ [quoteChar]) acc = [acc.reverse ++ B ++ [quoteChar]] := by
  induction B with
  | nil =>
    intro _ acc
    have h0 : splitOnQuoteSpaceQuote [quoteChar] acc = [acc.reverse ++ [quoteChar]] := rfl
    simpa using h0
  | cons b B2 ih =>
    intro hB acc
    have hb : b ≠ quoteChar := fun h => hB (by simp [h])
    have hB2 : quoteChar ∉ B2 := fun h => hB (List.mem_cons_of_mem b h)
    cases B2 with
    | nil =>
      have h0 : splitOnQuoteSpaceQuote (b :: [quoteChar]) acc
          = [acc.reverse ++ (b :: [quoteChar])] := rfl
      simpa using h0
    | cons c B3 =>
      obtain ⟨x, xs, hx⟩ : ∃ x xs, B3 ++ [quoteChar] = x :: xs := by
        cases h3 : B3 ++ [quoteChar] with
        | nil => simp at h3
        | cons x xs => exact ⟨x, xs, rfl⟩
      calc splitOnQuoteSpaceQuote ((b :: c :: B3) ++ [quoteChar]) acc
          = splitOnQuoteSpaceQuote (b :: c :: x :: xs) acc := by simp [hx]
        _ = splitOnQuoteSpaceQuote (c :: x :: xs) (b :: acc) :=
            splitQSQ_step_ne b c x xs acc (fun hcon => hb hcon.1)
        _ = splitOnQuoteSpaceQuote ((c :: B3) ++ [quoteChar]) (b :: acc) := by simp [hx]
        _ = [(b :: acc).reverse ++ (c :: B3) ++ [quoteChar]] := ih hB2 (b :: acc)
        _ = [acc.reverse ++ (b :: c :: B3) ++ [quoteChar]] := by simp

theorem jsSplitTeachArgs_wellformed (A B : Str) (hA : quoteChar ∉ A) (hB : quoteChar ∉ B)
    (hA1 : A ≠ [' ']) :
    jsSplitTeachArgs (quoteChar :: A ++ quoteChar :: ' ' :: quoteChar :: (B ++ [quoteChar]))
      = [quoteChar :: A, B ++ [quoteChar]] := by
  unfold jsSplitTeachArgs
  cases A with
  | nil =>
    have e1 := splitQSQ_step_ne quoteChar quoteChar ' '
      (quoteChar :: (B ++ [quoteChar])) [] (by simp [quoteChar])
    have e2 := splitQSQ_step_eq (B ++ [quoteChar]) [quoteChar]
    have e3 := splitQSQ_tail B hB []
    simp only [List.cons_append, List.nil_append] at *
    rw [e1, e2, e3]
    simp
  | cons a A2 =>
    have ha : a ≠ quoteChar := fun h => hA (by simp [h])
    have hA2 : quoteChar ∉ A2 := fun h => hA (List.mem_cons_of_mem a h)
    cases A2 with
    | nil =>
      have ha2 : a ≠ ' ' := fun h => hA1 (by simp [h])
      have e1 := splitQSQ_step_ne quoteChar a quoteChar
        (' ' :: quoteChar :: (B ++ [quoteChar])) [] (fun hcon => ha2 hcon.2.1)
      have e2 := splitQSQ_step_ne a quoteChar ' '
        (quoteChar :: (B ++ [quoteChar])) [quoteChar] (fun hcon => ha hcon.1)
      have e3 := splitQSQ_step_eq (B ++ [quoteChar]) (a :: [quoteChar])
      have e4 := splitQSQ_tail B hB []
      simp only [List.cons_append, List.nil_append] at *
      rw [e1, e2, e3, e4]
      simp
    | cons b A3 =>
      have hb : b ≠ quoteChar := fun h => hA (by simp [h])
      have e1 := splitQSQ_step_ne quoteChar a b
        (A3 ++ quoteChar :: ' ' :: quoteChar :: (B ++ [quoteChar])) []
        (fun hcon => hb hcon.2.2)
      have e2 := splitQSQ_skip (a :: b :: A3) hA (B ++ [quoteChar]) [quoteChar]
      have e3 := splitQSQ_tail B hB []
      simp only [List.cons_append, List.nil_append] at *
      rw [e1]
      rw [e2, e3]
      simp

/-! ### Helper lemmas about quote stripping and prefixes -/

theorem stripQuotes_of_not_mem (l : Str) (h : quoteChar ∉ l) : stripQuotes l = l := by
  unfold stripQuotes
  rw [List.filter_eq_self]
  intro c hc
  have : c ≠ quoteChar := fun hcq => h (hcq ▸ hc)
  simpa using this

theorem stripQuotes_quote_cons (l : Str) : stripQuotes (quoteChar :: l) = stripQuotes l := by
  simp [stripQuotes]

theorem stripQuotes_append_quote (l : Str) : stripQuotes (l ++ [quoteChar]) = stripQuotes l := by
  simp [stripQuotes]

theorem not_mem_stripQuotes (l : Str) : quoteChar ∉ stripQuotes l := by
  intro h
  have := (List.mem_filter.mp h).2
  simp at this

theorem isPrefixOf_append_self (l r : Str) : l.isPrefixOf (l ++ r) = true := by
  rw [List.isPrefixOf_iff_prefix]
  exact List.prefix_append l r

theorem trim_ne_nil_of_isPrefixOf (p raw : Str) (hp : p.isPrefixOf (jsTrim raw) = true)
    (hne : p ≠ []) : jsTrim raw ≠ [] := by
  intro h
  rw [h] at hp
  rw [List.isPrefixOf_iff_prefix] at hp
  exact hne (List.prefix_nil.mp hp)

theorem teachCmd_drop (A B : Str) :
    List.drop teachPrefixText.length (teachCmd A B)
      = quoteChar :: A ++ quoteChar :: ' ' :: quoteChar :: (B ++ [quoteChar]) := by
  unfold teachCmd
  exact List.drop_left _ _

theorem teachCmd_isTeach (A B : Str) : teachPrefixText.isPrefixOf (teachCmd A B) = true := by
  unfold teachCmd
  exact isPrefixOf_append_self _ _

theorem teachCmd_ne_nil (A B : Str) : teachCmd A B ≠ [] := by
  unfold teachCmd teachPrefixText
  simp

/-! ### Helper lemmas about the pipeline branches -/

theorem handleSendMessage_noop_empty (avail : Bool) (rawInput : Str) (st : AppState)
    (fault : SubmitFault) (h : jsTrim rawInput = []) :
    handleSendMessage avail rawInput st fault = SubmitResult.mk st none := by
  simp [handleSendMessage, h]

theorem handleSendMessage_noop_unavailable (rawInput : Str) (st : AppState)
    (fault : SubmitFault) :
    handleSendMessage false rawInput st fault = SubmitResult.mk st none := by
  simp [handleSendMessage]

theorem handleSendMessage_ok_run (rawInput : Str) (st : AppState) (o : FetchOutcome)
    (hne : jsTrim rawInput ≠ []) :
    handleSendMessage true rawInput st (.ok o)
      = SubmitResult.mk
          { (classify (jsTrim rawInput)
              (AppState.mk (st.log ++ [ChatMessage.mk userSender (jsTrim rawInput)])
                st.training st.view true) o).state with isLoading := false }
          (classify (jsTrim rawInput)
              (AppState.mk (st.log ++ [ChatMessage.mk userSender (jsTrim rawInput)])
                st.training st.view true) o).request := by
  simp [handleSendMessage, hne]

theorem handleSendMessage_throwAtUserWrite (rawInput : Str) (st : AppState)
    (hne : jsTrim rawInput ≠ []) :
    handleSendMessage true rawInput st .throwAtUserWrite
      = SubmitResult.mk
          (AppState.mk (st.log ++ [ChatMessage.mk botSender oopsText])
            st.training st.view false) none := by
  simp [handleSendMessage, hne, sendBotResponse]

theorem handleSendMessage_throwInBranch (rawInput : Str) (st : AppState)
    (hne : jsTrim rawInput ≠ []) :
    handleSendMessage true rawInput st .throwInBranch
      = SubmitResult.mk
          (AppState.mk
            (st.log ++ [ChatMessage.mk userSender (jsTrim rawInput),
                        ChatMessage.mk botSender oopsText])
            st.training st.view false) none := by
  simp [handleSendMessage, hne, sendBotResponse]

theorem classify_teach_parsed (m : Str) (st : AppState) (o : FetchOutcome) (p0 p1 : Str)
    (hp : teachPrefixText.isPrefixOf m = true)
    (hs : jsSplitTeachArgs (List.drop teachPrefixText.length m) = [p0, p1]) :
    classify m st o
      = SubmitResult.mk
          { st with
              training := saveTrainingData st.training (stripQuotes p0) (stripQuotes p1),
              log := sendBotResponse st.log botSender ackText } none := by
  simp [classify, hp, hs]

theorem classify_clear (m : Str) (st : AppState) (o : FetchOutcome)
    (ht : teachPrefixText.isPrefixOf m = false)
    (hc : clearPrefixText.isPrefixOf m = true) :
    classify m st o
      = SubmitResult.mk
          { st with view := [], log := sendBotResponse st.log botSender clearedText } none := by
  simp [classify, ht, hc]

theorem classify_inference (m : Str) (st : AppState) (o : FetchOutcome)
    (ht : teachPrefixText.isPrefixOf m = false)
    (hc : clearPrefixText.isPrefixOf m = false) :
    classify m st o
      = SubmitResult.mk
          { st with log := sendBotResponse st.log botSender (inferReplyText o) }
          (some (buildTurns st.training st.view m)) := by
  simp [classify, ht, hc, getBotResponse]

/-! ### Helper lemmas about the Knowledge Store upsert -/

theorem find?_map_upsert (store : List KnowledgeEntry) (e : KnowledgeEntry)
    (h : store.any (fun x => x.key == e.key) = true) :
    (store.map (fun x => if x.key == e.key then e else x)).find?
      (fun x => x.key == e.key) = some e := by
  induction store with
  | nil => simp at h
  | cons x xs ih =>
    by_cases hx : (x.key == e.key) = true
    · rw [List.map_cons, if_pos hx]
      exact List.find?_cons_of_pos _ (by simp)
    · have h2 : xs.any (fun y => y.key == e.key) = true := by
        simp only [List.any_cons, hx, Bool.false_or] at h
        exact h
      rw [List.map_cons, if_neg hx, List.find?_cons_of_neg]
      · exact ih h2
      · exact hx

theorem lookupKey_setDocMerge_self (store : List KnowledgeEntry) (e : KnowledgeEntry) :
    lookupKey (setDocMerge store e) e.key = some e := by
  unfold setDocMerge lookupKey
  by_cases h : store.any (fun x => x.key == e.key) = true
  · rw [if_pos h]
    exact find?_map_upsert store e h
  · rw [if_neg h]
    rw [List.find?_append]
    have hnone : store.find? (fun x => x.key == e.key) = none := by
      rw [List.find?_eq_none]
      intro x hx hpx
      exact h (List.any_eq_true.mpr ⟨x, hx, hpx⟩)
    rw [hnone]
    simp

theorem length_setDocMerge_present (store : List KnowledgeEntry) (e : KnowledgeEntry)
    (h : store.any (fun x => x.key == e.key) = true) :
    (setDocMerge store e).length = store.length := by
  unfold setDocMerge
  rw [if_pos h]
  exact List.length_map _ _

theorem any_key_setDocMerge_self (store : List KnowledgeEntry) (e : KnowledgeEntry) :
    (setDocMerge store e).any (fun x => x.key == e.key) = true := by
  have hl := lookupKey_setDocMerge_self store e
  unfold lookupKey at hl
  have hm := List.mem_of_find?_eq_some hl
  exact List.any_eq_true.mpr ⟨e, hm, by simp⟩

theorem mem_setDocMerge (store : List KnowledgeEntry) (e x : KnowledgeEntry)
    (hx : x ∈ setDocMerge store e) : x ∈ store ∨ x = e := by
  unfold setDocMerge at hx
  split at hx
  · rcases List.mem_map.mp hx with ⟨y, hy, hmap⟩
    by_cases hk : (y.key == e.key) = true
    · right
      rw [if_pos hk] at hmap
      exact hmap.symm
    · left
      rw [if_neg hk] at hmap
      exact hmap ▸ hy
  · rcases List.mem_append.mp hx with h | h
    · left
      exact h
    · right
      simpa using h

/-! ### The run of a well-formed teach command -/

theorem handle_teachCmd (A B : Str) (rawInput : Str) (st : AppState) (o : FetchOutcome)
    (hA : quoteChar ∉ A) (hB : quoteChar ∉ B) (hA1 : A ≠ [' '])
    (htrim : jsTrim rawInput = teachCmd A B) :
    handleSendMessage true rawInput st (.ok o)
      = SubmitResult.mk
          (AppState.mk
            (st.log ++ [ChatMessage.mk userSender (teachCmd A B),
                        ChatMessage.mk botSender ackText])
            (setDocMerge st.training (KnowledgeEntry.mk (jsToLower A) A B))
            st.view false)
          none := by
  have hne : jsTrim rawInput ≠ [] := by
    rw [htrim]
    exact teachCmd_ne_nil A B
  rw [handleSendMessage_ok_run rawInput st o hne, htrim]
  rw [classify_teach_parsed (teachCmd A B) _ o (quoteChar :: A) (B ++ [quoteChar])
      (teachCmd_isTeach A B)
      (by rw [teachCmd_drop]; exact jsSplitTeachArgs_wellformed A B hA hB hA1)]
  rw [stripQuotes_quote_cons, stripQuotes_append_quote,
      stripQuotes_of_not_mem A hA, stripQuotes_of_not_mem B hB]
  simp [saveTrainingData, sendBotResponse]

/-! ### Disambiguation of the two command prefixes -/

theorem teachWord_not_clear (m : Str) (h : ("/teach".data : Str).isPrefixOf m = true) :
    clearPrefixText.isPrefixOf m = false := by
  cases h2 : clearPrefixText.isPrefixOf m with
  | false => rfl
  | true =>
    exfalso
    rw [List.isPrefixOf_iff_prefix] at h h2
    obtain ⟨u, hu⟩ := h
    obtain ⟨v, hv⟩ := h2
    have heq : ("/teach".data : Str) ++ u = clearPrefixText ++ v := hu.trans hv.symm
    have h6 : ("/teach".data : Str) = '/' :: 't' :: 'e' :: 'a' :: 'c' :: 'h' :: [] := rfl
    have h6c : clearPrefixText = '/' :: 'c' :: 'l' :: 'e' :: 'a' :: 'r' :: [] := rfl
    rw [h6, h6c] at heq
    simp only [List.cons_append, List.nil_append, List.cons.injEq] at heq
    exact absurd heq.2.1 (by decide)

theorem teach_not_clear (m : Str) (ht : teachPrefixText.isPrefixOf m = true) :
    clearPrefixText.isPrefixOf m = false := by
  apply teachWord_not_clear
  rw [List.isPrefixOf_iff_prefix] at ht ⊢
  exact List.IsPrefix.trans ⟨[' '], rfl⟩ ht

theorem clear_not_teach (m : Str) (hc : clearPrefixText.isPrefixOf m = true) :
    teachPrefixText.isPrefixOf m = false := by
  cases h2 : teachPrefixText.isPrefixOf m with
  | false => rfl
  | true =>
    exfalso
    rw [List.isPrefixOf_iff_prefix] at hc h2
    obtain ⟨u, hu⟩ := hc
    obtain ⟨v, hv⟩ := h2
    have heq : clearPrefixText ++ u = teachPrefixText ++ v := hu.trans hv.symm
    have h6c : clearPrefixText = '/' :: 'c' :: 'l' :: 'e' :: 'a' :: 'r' :: [] := rfl
    have h7 : teachPrefixText = '/' :: 't' :: 'e' :: 'a' :: 'c' :: 'h' :: ' ' :: [] := rfl
    rw [h6c, h7] at heq
    simp only [List.cons_append, List.nil_append, List.cons.injEq] at heq
    exact absurd heq.2.1 (by decide)

/-! ### Shape of the log written by one classification -/

theorem classify_log_shape (m : Str) (st : AppState) (o : FetchOutcome) :
    ∃ t, (classify m st o).state.log = st.log ++ [ChatMessage.mk botSender t] := by
  unfold classify
  split
  · split
    · exact ⟨ackText, by simp [sendBotResponse]⟩
    · exact ⟨invalidTeachText, by simp [sendBotResponse]⟩
  · split
    · exact ⟨clearedText, by simp [sendBotResponse]⟩
    · exact ⟨inferReplyText o, by simp [getBotResponse, sendBotResponse]⟩

theorem quoteFree_stripQuotes (l : Str) : quoteFree (stripQuotes l) = true := by
  unfold quoteFree stripQuotes
  rw [List.all_eq_true]
  intro c hc
  exact (List.mem_filter.mp hc).2

theorem training_change_shape (avail : Bool) (rawInput : Str) (st : AppState)
    (fault : SubmitFault) :
    (handleSendMessage avail rawInput st fault).state.training = st.training
    ∨ ∃ p0 p1, (handleSendMessage avail rawInput st fault).state.training
        = saveTrainingData st.training (stripQuotes p0) (stripQuotes p1) := by
  simp only [handleSendMessage]
  split
  · left
    rfl
  · cases fault with
    | throwAtUserWrite => left; rfl
    | throwInBranch => left; rfl
    | ok o =>
      simp only [classify]
      split
      · split
        · right
          exact ⟨_, _, rfl⟩
        · left
          rfl
      · split
        · left
          rfl
        · left
          rfl

/-! ### The claims -/

/-- C1: for every raw input whose trimmed form is non-empty, when the store
handle and identity are available and the initial store write does not
itself throw, `handleSendMessage` appends exactly one user `ChatMessage`
carrying the trimmed raw input to the Conversation Store log before any
classification branch runs (every later append in the same call is
bot-authored); if the trimmed input is empty or the store handle or
identity is unavailable, the call is a no-op. -/
theorem submit_user_message_first (rawInput : Str) (st : AppState) (fault : SubmitFault)
    (hf : fault ≠ SubmitFault.throwAtUserWrite) :
    (jsTrim rawInput = [] → handleSendMessage true rawInput st fault = SubmitResult.mk st none)
    ∧ handleSendMessage false rawInput st fault = SubmitResult.mk st none
    ∧ (jsTrim rawInput ≠ [] →
        (handleSendMessage true rawInput st fault).state.log.take (st.log.length + 1)
            = st.log ++ [ChatMessage.mk userSender (jsTrim rawInput)]
          ∧ ((handleSendMessage true rawInput st fault).state.log.drop
              (st.log.length + 1)).all (fun m => m.sender == botSender) = true) := by
  refine ⟨fun h => handleSendMessage_noop_empty true rawInput st fault h,
    handleSendMessage_noop_unavailable rawInput st fault, fun hne => ?_⟩
  cases fault with
  | throwAtUserWrite => exact absurd rfl hf
  | throwInBranch =>
    rw [handleSendMessage_throwInBranch rawInput st hne]
    have hsplit : st.log ++ [ChatMessage.mk userSender (jsTrim rawInput),
        ChatMessage.mk botSender oopsText]
        = (st.log ++ [ChatMessage.mk userSender (jsTrim rawInput)])
            ++ [ChatMessage.mk botSender oopsText] := by simp
    constructor
    · show (st.log ++ [ChatMessage.mk userSender (jsTrim rawInput),
          ChatMessage.mk botSender oopsText]).take (st.log.length + 1) = _
      rw [hsplit, List.take_left' (by simp)]
    · show ((st.log ++ [ChatMessage.mk userSender (jsTrim rawInput),
          ChatMessage.mk botSender oopsText]).drop (st.log.length + 1)).all _ = true
      rw [hsplit, List.drop_left' (by simp)]
      simp
  | ok o =>
    rw [handleSendMessage_ok_run rawInput st o hne]
    obtain ⟨t, ht⟩ := classify_log_shape (jsTrim rawInput)
      (AppState.mk (st.log ++ [ChatMessage.mk userSender (jsTrim rawInput)])
        st.training st.view true) o
    constructor
    · show ((classify (jsTrim rawInput) _ o).state.log).take (st.log.length + 1) = _
      rw [ht]
      exact List.take_left' (by simp)
    · show (((classify (jsTrim rawInput) _ o).state.log).drop (st.log.length + 1)).all _ = true
      rw [ht, List.drop_left' (by simp)]
      simp

/-- Witness for C1 at the concrete input consisting of the word hi framed
by spaces, submitted against an empty state with the inference call set to
fail at transport level. -/
theorem submit_user_message_first_witness :
    (handleSendMessage true " hi ".data (AppState.mk [] [] [] false)
        (.ok .failure)).state.log.take (([] : List ChatMessage).length + 1)
        = [] ++ [ChatMessage.mk userSender (jsTrim " hi ".data)]
      ∧ ((handleSendMessage true " hi ".data (AppState.mk [] [] [] false)
          (.ok .failure)).state.log.drop (([] : List ChatMessage).length + 1)).all
          (fun m => m.sender == botSender) = true :=
  (submit_user_message_first " hi ".data (AppState.mk [] [] [] false)
    (.ok .failure) (by decide)).2.2 (by decide)

/-- C4: for every endpoint response carrying a first text part inside the
first candidate, the inference turn writes exactly one bot `ChatMessage`
whose text is that first generated text segment. -/
theorem infer_success_first_candidate_text (st : AppState) (userMessage t : Str)
    (ps : List ResponsePart) (cs : List ResponseCandidate) :
    ((getBotResponse st userMessage
        (.response (LLMResponse.mk (some (ResponseCandidate.mk
          (some (ResponseContent.mk (some (ResponsePart.mk t :: ps)))) :: cs))))).2).log
      = st.log ++ [ChatMessage.mk botSender t] := rfl

/-- C5: every outcome of an inference turn writes exactly one bot
`ChatMessage` (the model is a total function, so no exception escapes);
a response with no `candidates` field yields the rephrase fallback text,
and a transport-level failure yields the trouble-connecting fallback
text. -/
theorem infer_always_one_bot_message (st : AppState) (userMessage : Str)
    (outcome : FetchOutcome) :
    (∃ t, ((getBotResponse st userMessage outcome).2).log
        = st.log ++ [ChatMessage.mk botSender t])
    ∧ ((getBotResponse st userMessage (.response (LLMResponse.mk none))).2).log
        = st.log ++ [ChatMessage.mk botSender rephraseText]
    ∧ ((getBotResponse st userMessage .failure).2).log
        = st.log ++ [ChatMessage.mk botSender troubleText] :=
  ⟨⟨inferReplyText outcome, rfl⟩, rfl, rfl⟩

/-- C7: the turn list sent to the endpoint is one turn per transcript
message in order, tagged user or model according to its sender, followed
by exactly one final instruction turn whose text is the fixed preamble,
the rendered training block (one line per pair via `trainingLine`), the
fixed bridge text, and the literal new user message. -/
theorem inference_request_turns (st : AppState) (userMessage : Str)
    (outcome : FetchOutcome) :
    ((getBotResponse st userMessage outcome).1).take st.view.length
        = st.view.map (fun m =>
            Turn.mk (if m.sender == userSender then "user".data else "model".data) m.text)
    ∧ ((getBotResponse st userMessage outcome).1).drop st.view.length
        = [Turn.mk "user".data
            (promptIntro ++ List.intercalate "\n".data (st.training.map trainingLine)
              ++ promptBridge ++ userMessage)] := by
  simp only [getBotResponse, buildTurns]
  constructor
  · exact List.take_left' (by simp)
  · exact List.drop_left' (by simp)

/-- C6: for every input whose trimmed form begins with the clear command
prefix, the call empties the local transcript view while the Conversation
Store keeps everything it had (the final log is the old log plus the two
new messages), and appends exactly one bot confirmation message. -/
theorem clear_branch_behavior (rawInput : Str) (st : AppState) (o : FetchOutcome)
    (h : clearPrefixText.isPrefixOf (jsTrim rawInput) = true) :
    handleSendMessage true rawInput st (.ok o)
      = SubmitResult.mk
          (AppState.mk
            (st.log ++ [ChatMessage.mk userSender (jsTrim rawInput),
                        ChatMessage.mk botSender clearedText])
            st.training [] false)
          none := by
  have hne : jsTrim rawInput ≠ [] :=
    trim_ne_nil_of_isPrefixOf clearPrefixText rawInput h (by decide)
  rw [handleSendMessage_ok_run rawInput st o hne]
  rw [classify_clear (jsTrim rawInput) _ o (clear_not_teach _ h) h]
  simp [sendBotResponse]

/-- Witness for C6 at the concrete input `/clear` against a state with a
non-empty local view. -/
theorem clear_branch_behavior_witness :
    handleSendMessage true "/clear".data
        (AppState.mk [] [] [ChatMessage.mk userSender "x".data] false) (.ok .failure)
      = SubmitResult.mk
          (AppState.mk [ChatMessage.mk userSender (jsTrim "/clear".data),
                        ChatMessage.mk botSender clearedText] [] [] false)
          none := by
  have h := clear_branch_behavior "/clear".data
    (AppState.mk [] [] [ChatMessage.mk userSender "x".data] false) .failure (by decide)
  simpa using h

/-- C8: on any injected failure inside the submission pipeline the catch
block appends the generic error message (whose lower-cased text contains
the phrase something went wrong) and the call still returns normally; in
every outcome, faulted or not, the finally block leaves the busy flag
cleared. -/
theorem submit_failure_recovery (rawInput : Str) (st : AppState) (fault : SubmitFault)
    (hne : jsTrim rawInput ≠ []) :
    (handleSendMessage true rawInput st fault).state.isLoading = false
    ∧ (handleSendMessage true rawInput st .throwAtUserWrite).state.log
        = st.log ++ [ChatMessage.mk botSender oopsText]
    ∧ (handleSendMessage true rawInput st .throwInBranch).state.log
        = st.log ++ [ChatMessage.mk userSender (jsTrim rawInput),
                     ChatMessage.mk botSender oopsText]
    ∧ "something went wrong".data <:+: jsToLower oopsText := by
  refine ⟨?_, ?_, ?_, ?_⟩
  · cases fault with
    | ok o => rw [handleSendMessage_ok_run rawInput st o hne]
    | throwAtUserWrite => rw [handleSendMessage_throwAtUserWrite rawInput st hne]
    | throwInBranch => rw [handleSendMessage_throwInBranch rawInput st hne]
  · rw [handleSendMessage_throwAtUserWrite rawInput st hne]
  · rw [handleSendMessage_throwInBranch rawInput st hne]
  · exact ⟨"oops! ".data, ". please try again.".data, by decide⟩

/-- Witness for C8 at the concrete input hi with the initial store write
throwing. -/
theorem submit_failure_recovery_witness :
    (handleSendMessage true "hi".data (AppState.mk [] [] [] false)
        .throwAtUserWrite).state.log
      = [] ++ [ChatMessage.mk botSender oopsText] :=
  (submit_failure_recovery "hi".data (AppState.mk [] [] [] false)
    .throwAtUserWrite (by decide)).2.1

/-- C9: the question and answer fields stored by an accepted teach command
contain no double quote (every double quote of both segments is stripped),
so a store whose entries are quote-free stays quote-free across any
submission. -/
theorem stored_training_quote_free (avail : Bool) (rawInput : Str) (st : AppState)
    (fault : SubmitFault)
    (h : st.training.all (fun e => quoteFree e.question && quoteFree e.answer) = true) :
    ((handleSendMessage avail rawInput st fault).state.training.all
        (fun e => quoteFree e.question && quoteFree e.answer)) = true := by
  rcases training_change_shape avail rawInput st fault with heq | ⟨p0, p1, heq⟩
  · rw [heq]
    exact h
  · rw [heq]
    rw [List.all_eq_true] at h ⊢
    intro e he
    unfold saveTrainingData at he
    rcases mem_setDocMerge _ _ _ he with hmem | rfl
    · exact h e hmem
    · simp [quoteFree_stripQuotes]

/-- Witness for C9: a concrete teach command against an empty store. -/
theorem stored_training_quote_free_witness :
    ((handleSendMessage true (teachCmd "hi".data "yo".data) (AppState.mk [] [] [] false)
        (.ok .failure)).state.training.all
      (fun e => quoteFree e.question && quoteFree e.answer)) = true :=
  stored_training_quote_free true (teachCmd "hi".data "yo".data)
    (AppState.mk [] [] [] false) (.ok .failure) (by decide)

/-- C10: an input whose trimmed form starts with the word /teach but not
with the seven-character teach prefix (no following space, for example
exactly /teach) is not classified as a teach command: no training entry is
written, no usage message appears, and the message goes to the inference
branch, whose request payload carries it as plain chat text. -/
theorem teach_without_space_inference (rawInput : Str) (st : AppState) (o : FetchOutcome)
    (h0 : ("/teach".data : Str).isPrefixOf (jsTrim rawInput) = true)
    (h1 : teachPrefixText.isPrefixOf (jsTrim rawInput) = false) :
    handleSendMessage true rawInput st (.ok o)
      = SubmitResult.mk
          (AppState.mk
            (st.log ++ [ChatMessage.mk userSender (jsTrim rawInput),
                        ChatMessage.mk botSender (inferReplyText o)])
            st.training st.view false)
          (some (buildTurns st.training st.view (jsTrim rawInput))) := by
  have hne : jsTrim rawInput ≠ [] :=
    trim_ne_nil_of_isPrefixOf "/teach".data rawInput h0 (by decide)
  rw [handleSendMessage_ok_run rawInput st o hne]
  rw [classify_inference (jsTrim rawInput) _ o h1 (teachWord_not_clear _ h0)]
  simp [sendBotResponse]

/-- Witness for C10 at the concrete input exactly /teach with no trailing
space. -/
theorem teach_without_space_inference_witness :
    handleSendMessage true "/teach".data (AppState.mk [] [] [] false) (.ok .failure)
      = SubmitResult.mk
          (AppState.mk [ChatMessage.mk userSender (jsTrim "/teach".data),
                        ChatMessage.mk botSender (inferReplyText .failure)] [] [] false)
          (some (buildTurns [] [] (jsTrim "/teach".data))) := by
  have h := teach_without_space_inference "/teach".data (AppState.mk [] [] [] false)
    .failure (by decide) (by decide)
  simpa using h

/-- C2 counterexample: for the question consisting of a single space and
the answer x, the command built exactly per the grammar is accepted but
the stored entry has the empty key, the empty question, and the answer
space-x; in particular no entry sits at the key obtained by normalizing
the question, contradicting the claim. -/
theorem teach_upsert_cex :
    jsTrim (teachCmd [' '] "x".data) = teachCmd [' '] "x".data
    ∧ (handleSendMessage true (teachCmd [' '] "x".data) (AppState.mk [] [] [] false)
        (.ok .failure)).state.training
        = [KnowledgeEntry.mk [] [] (' ' :: "x".data)]
    ∧ lookupKey (handleSendMessage true (teachCmd [' '] "x".data)
        (AppState.mk [] [] [] false) (.ok .failure)).state.training (jsToLower [' '])
        = none :=
  ⟨by decide, by decide, by decide⟩

/-- C2 (amended): for every question and answer containing no double quote
and with the question not equal to a single space, submitting the teach
command upserts a `KnowledgeEntry` whose key is the lower-cased question
and whose answer field is the given answer, and emits the bot
acknowledgement; a second teach whose question lower-cases to the same key
overwrites the entry at that key without changing the number of
entries. -/
theorem teach_upsert_amended (A B A2 C rawAB rawA2C : Str) (st : AppState)
    (o1 o2 : FetchOutcome)
    (hA : quoteChar ∉ A) (hB : quoteChar ∉ B) (hA2 : quoteChar ∉ A2) (hC : quoteChar ∉ C)
    (hA1 : A ≠ [' ']) (hA21 : A2 ≠ [' '])
    (hkey : jsToLower A2 = jsToLower A)
    (h1 : jsTrim rawAB = teachCmd A B) (h2 : jsTrim rawA2C = teachCmd A2 C) :
    lookupKey (handleSendMessage true rawAB st (.ok o1)).state.training (jsToLower A)
        = some (KnowledgeEntry.mk (jsToLower A) A B)
    ∧ (handleSendMessage true rawAB st (.ok o1)).state.log
        = st.log ++ [ChatMessage.mk userSender (teachCmd A B),
                     ChatMessage.mk botSender ackText]
    ∧ lookupKey (handleSendMessage true rawA2C
          (handleSendMessage true rawAB st (.ok o1)).state (.ok o2)).state.training
          (jsToLower A)
        = some (KnowledgeEntry.mk (jsToLower A) A2 C)
    ∧ (handleSendMessage true rawA2C
          (handleSendMessage true rawAB st (.ok o1)).state (.ok o2)).state.training.length
        = (handleSendMessage true rawAB st (.ok o1)).state.training.length := by
  have e1 := handle_teachCmd A B rawAB st o1 hA hB hA1 h1
  rw [e1]
  dsimp only
  have e2 := handle_teachCmd A2 C rawA2C
    (AppState.mk
      (st.log ++ [ChatMessage.mk userSender (teachCmd A B),
                  ChatMessage.mk botSender ackText])
      (setDocMerge st.training (KnowledgeEntry.mk (jsToLower A) A B))
      st.view false) o2 hA2 hC hA21 h2
  rw [e2]
  dsimp only
  refine ⟨?_, rfl, ?_, ?_⟩
  · exact lookupKey_setDocMerge_self st.training (KnowledgeEntry.mk (jsToLower A) A B)
  · rw [← hkey]
    exact lookupKey_setDocMerge_self _ (KnowledgeEntry.mk (jsToLower A2) A2 C)
  · apply length_setDocMerge_present
    have hany := any_key_setDocMerge_self st.training (KnowledgeEntry.mk (jsToLower A) A B)
    show (setDocMerge st.training (KnowledgeEntry.mk (jsToLower A) A B)).any
      (fun x => x.key == jsToLower A2) = true
    rw [hkey]
    exact hany

/-- Witness for the amended C2: teaching q then Q (same key after
lower-casing) against an empty store leaves a single entry whose answer
has been overwritten. -/
theorem teach_upsert_amended_witness :
    lookupKey (handleSendMessage true (teachCmd "Q".data "c".data)
        (handleSendMessage true (teachCmd "q".data "b".data) (AppState.mk [] [] [] false)
          (.ok .failure)).state (.ok .failure)).state.training (jsToLower "q".data)
      = some (KnowledgeEntry.mk (jsToLower "q".data) "Q".data "c".data) :=
  (teach_upsert_amended "q".data "b".data "Q".data "c".data
    (teachCmd "q".data "b".data) (teachCmd "Q".data "c".data)
    (AppState.mk [] [] [] false) .failure .failure
    (by decide) (by decide) (by decide) (by decide) (by decide) (by decide)
    (by decide) (by decide) (by decide)).2.2.1

/-- C3 counterexample: the trimmed input /teach hello-quote-space-quote-world
starts with the teach prefix, its remainder does not match the
two-double-quoted-segment grammar, yet the split-based parse accepts it: a
training entry is created and the acknowledgement (not the usage guidance)
is emitted, contradicting the claim. -/
theorem teach_grammar_cex :
    teachPrefixText.isPrefixOf (jsTrim "/teach hello\" \"world".data) = true
    ∧ ¬ matchesTeachGrammar
        (List.drop teachPrefixText.length (jsTrim "/teach hello\" \"world".data))
    ∧ (handleSendMessage true "/teach hello\" \"world".data (AppState.mk [] [] [] false)
        (.ok .failure)).state.training
        = [KnowledgeEntry.mk "hello".data "hello".data "world".data]
    ∧ (handleSendMessage true "/teach hello\" \"world".data (AppState.mk [] [] [] false)
        (.ok .failure)).state.log
        = [ChatMessage.mk userSender (jsTrim "/teach hello\" \"world".data),
           ChatMessage.mk botSender ackText]
    ∧ ackText ≠ invalidTeachText := by
  refine ⟨by decide, ?_, by decide, by decide, by decide⟩
  rintro ⟨q1, a1, -, -, heq⟩
  have hh : List.head? (List.drop teachPrefixText.length
      (jsTrim "/teach hello\" \"world".data)) = some 'h' := by decide
  rw [heq] at hh
  simp only [List.cons_append, List.head?_cons, Option.some.injEq] at hh
  exact absurd hh (by decide)

/-- C3 (amended): an input whose trimmed form starts with the teach prefix
is rejected with the usage-guidance bot message and no training entry
exactly when splitting the remainder on the quote-space-quote separator
yields a number of pieces other than two; a remainder containing exactly
one separator occurrence is accepted even when its pieces are not fully
double-quote-delimited. -/
theorem teach_invalid_split_rejected (rawInput : Str) (st : AppState) (o : FetchOutcome)
    (hp : teachPrefixText.isPrefixOf (jsTrim rawInput) = true)
    (hlen : (jsSplitTeachArgs (List.drop teachPrefixText.length (jsTrim rawInput))).length
      ≠ 2) :
    handleSendMessage true rawInput st (.ok o)
      = SubmitResult.mk
          (AppState.mk
            (st.log ++ [ChatMessage.mk userSender (jsTrim rawInput),
                        ChatMessage.mk botSender invalidTeachText])
            st.training st.view false)
          none := by
  have hne : jsTrim rawInput ≠ [] :=
    trim_ne_nil_of_isPrefixOf teachPrefixText rawInput hp (by decide)
  rw [handleSendMessage_ok_run rawInput st o hne]
  rcases hsp : jsSplitTeachArgs (List.drop teachPrefixText.length (jsTrim rawInput)) with
    _ | ⟨p0, _ | ⟨p1, _ | ⟨p2, ps⟩⟩⟩
  · simp [classify, hp, hsp, sendBotResponse]
  · simp [classify, hp, hsp, sendBotResponse]
  · exact absurd (by rw [hsp] : (jsSplitTeachArgs
      (List.drop teachPrefixText.length (jsTrim rawInput))).length = [p0, p1].length) hlen
  · simp [classify, hp, hsp, sendBotResponse]

/-- Witness for the amended C3 at the concrete input /teach bad. -/
theorem teach_invalid_split_rejected_witness :
    handleSendMessage true "/teach bad".data (AppState.mk [] [] [] false) (.ok .failure)
      = SubmitResult.mk
          (AppState.mk [ChatMessage.mk userSender (jsTrim "/teach bad".data),
                        ChatMessage.mk botSender invalidTeachText] [] [] false)
          none := by
  have h := teach_invalid_split_rejected "/teach bad".data (AppState.mk [] [] [] false)
    .failure (by decide) (by decide)
  simpa using h
